import Mathlib

/-!
Verification of the `ICvectorfields` native binding and its Moran's I engine.

The repository's only source file, `src/src/RcppExports.cpp`, is generated
binding glue: it declares the native routine `double MoransI(SEXP, SEXP)`,
defines the exported wrapper `_ICvectorfields_MoransI` (which forwards both
handles to `MoransI` inside a BEGIN_RCPP/END_RCPP envelope and wraps the
result), and registers that wrapper with arity 2.  The body of the native
`MoransI` routine is not part of the repository excerpt, so it is modelled
here from the specification's algorithm (global Moran's I).  Real numbers are
embedded as rationals so that every definition is executable.
-/

namespace ICvectorfields

/-- Error taxonomy of the specification: shape mismatch between the weights
matrix and the flattened observation count, fewer than two observations, and
the degenerate statistic (zero variance or zero total weight). -/
inductive MoransError where
  | shapeMismatch
  | insufficientData
  | domainError
  deriving DecidableEq, Repr

/-- Row-major flattening of a matrix (a list of rows) into the sequence
`x_1 .. x_N`. -/
def flatten (m : List (List ℚ)) : List ℚ := m.flatten

/-- Arithmetic mean `x̄ = (1/N) Σ x_i` of the flattened observations. -/
def xbar (x : List ℚ) : ℚ := x.sum / x.length

/-- Deviation `d_i = x_i − x̄` of the i-th flattened observation. -/
def dev (x : List ℚ) (i : ℕ) : ℚ := x.getD i 0 - xbar x

/-- Entry `w_ij` of the weights matrix (out-of-range reads default to 0;
the shape precondition keeps every access in range). -/
def wEntry (w : List (List ℚ)) (i j : ℕ) : ℚ := (w.getD i []).getD j 0

/-- Sum of all weights, `S0 = Σ_i Σ_j w_ij`, over an `n × n` weights matrix. -/
def S0 (w : List (List ℚ)) (n : ℕ) : ℚ :=
  ∑ i in Finset.range n, ∑ j in Finset.range n, wEntry w i j

/-- Sum of squared deviations `Σ_i d_i²`. -/
def sumDevSq (x : List ℚ) : ℚ :=
  ∑ i in Finset.range x.length, dev x i ^ 2

/-- Weighted cross-product of deviations, `Σ_i Σ_j w_ij · d_i · d_j`. -/
def crossSum (x : List ℚ) (w : List (List ℚ)) : ℚ :=
  ∑ i in Finset.range x.length, ∑ j in Finset.range x.length,
    wEntry w i j * dev x i * dev x j

/-- Modelled from the spec: the body of the native routine
`double MoransI(SEXP mat1, SEXP r1)` is absent from the repository (only its
declaration and the generated wrapper appear in `src/src/RcppExports.cpp`),
so the computation follows §4.1 of the specification: flatten the
observation matrix row-major into `x_1..x_N`, require `N ≥ 2` and an `N × N`
weights matrix, and return `N · Σ_i Σ_j w_ij·d_i·d_j / (S0 · Σ_i d_i²)`;
the degenerate cases `S0 = 0` and `Σ d_i² = 0` fail with a `DomainError`
(the spec's preferred policy over silently returning NaN). -/
def MoransI (values weights : List (List ℚ)) : Except MoransError ℚ :=
  if (flatten values).length < 2 then .error .insufficientData
  else if weights.length = (flatten values).length ∧
      ∀ r ∈ weights, r.length = (flatten values).length then
    if S0 weights (flatten values).length = 0 ∨ sumDevSq (flatten values) = 0 then
      .error .domainError
    else
      .ok (((flatten values).length * crossSum (flatten values) weights) /
        (S0 weights (flatten values).length * sumDevSq (flatten values)))
  else .error .shapeMismatch

/-- Host-environment values crossing the call boundary, restricted to the
shapes the binding layer produces or consumes: a decoded numeric matrix
handle, a decoded numeric scalar, and an error condition signalled to the
host by the call-boundary envelope. -/
inductive SEXP where
  | realMatrix (m : List (List ℚ))
  | realScalar (r : ℚ)
  | errorCondition (e : MoransError)
  deriving DecidableEq, Repr

/-- `Rcpp::wrap` on a `double`: encodes the scalar result back into a host
value (line 21 of `src/src/RcppExports.cpp`). -/
def RcppWrap (r : ℚ) : SEXP := .realScalar r

/-- Modelled from the spec: decoding of an input handle into the numeric
container the engine expects (argument marshaling is delegated to the host
collaborator; a scalar decodes as a 1×1 matrix, a non-numeric handle as an
empty one). -/
def decodeMatrix : SEXP → List (List ℚ)
  | .realMatrix m => m
  | .realScalar r => [[r]]
  | .errorCondition _ => []

/-- Modelled from the spec: the native routine declared at line 14 of
`src/src/RcppExports.cpp` decodes its two handles and runs the Moran's I
engine; a raised error is represented as an `Except.error` (a thrown C++
exception). -/
def MoransINative (mat1 r1 : SEXP) : Except MoransError ℚ :=
  MoransI (decodeMatrix mat1) (decodeMatrix r1)

/-- Embedding of the exported wrapper `_ICvectorfields_MoransI`
(lines 15–24 of `src/src/RcppExports.cpp`): the two handles are passed
through unchanged (`input_parameter<SEXP>` is the identity) and forwarded to
the native `MoransI` in the order received; a normal return is wrapped by
`Rcpp::wrap`, while the BEGIN_RCPP/END_RCPP envelope converts any thrown
exception into a host error condition. -/
def ICvectorfields_MoransI (mat1SEXP r1SEXP : SEXP) : SEXP :=
  match MoransINative mat1SEXP r1SEXP with
  | .ok v => RcppWrap v
  | .error e => .errorCondition e

/-- The registration table (lines 26–29 of `src/src/RcppExports.cpp`):
one entry, the exported wrapper, with arity 2. -/
def CallEntries : List (String × ℕ) := [("_ICvectorfields_MoransI", 2)]

/-- Multiplies every observation value by the constant `c`. -/
def scaleValues (c : ℚ) (v : List (List ℚ)) : List (List ℚ) :=
  v.map (List.map fun t => c * t)

/-! ### Helper lemmas -/

lemma sum_range_getD (x : List ℚ) :
    ∑ i in Finset.range x.length, x.getD i 0 = x.sum := by
  induction x with
  | nil => simp
  | cons a t ih =>
    rw [List.length_cons, Finset.sum_range_succ']
    simp only [List.getD_cons_succ, List.getD_cons_zero, List.sum_cons]
    rw [ih, add_comm]

lemma getD_map_mul (c : ℚ) : ∀ (x : List ℚ) (i : ℕ),
    (x.map fun t => c * t).getD i 0 = c * x.getD i 0
  | [], _ => by simp
  | _ :: _, 0 => by simp
  | _ :: t, i + 1 => by simpa using getD_map_mul c t i

lemma sum_map_mul (c : ℚ) (x : List ℚ) : (x.map fun t => c * t).sum = c * x.sum := by
  induction x with
  | nil => simp
  | cons a t ih => simp [ih, mul_add]

lemma flatten_scaleValues (c : ℚ) (v : List (List ℚ)) :
    flatten (scaleValues c v) = (flatten v).map fun t => c * t := by
  simp [flatten, scaleValues, List.map_flatten]

lemma xbar_map_mul (c : ℚ) (x : List ℚ) : xbar (x.map fun t => c * t) = c * xbar x := by
  unfold xbar
  rw [List.length_map, sum_map_mul, mul_div_assoc]

lemma dev_map_mul (c : ℚ) (x : List ℚ) (i : ℕ) :
    dev (x.map fun t => c * t) i = c * dev x i := by
  unfold dev
  rw [getD_map_mul, xbar_map_mul, mul_sub]

lemma sumDevSq_map_mul (c : ℚ) (x : List ℚ) :
    sumDevSq (x.map fun t => c * t) = c ^ 2 * sumDevSq x := by
  unfold sumDevSq
  rw [List.length_map, Finset.mul_sum]
  refine Finset.sum_congr rfl fun i _ => ?_
  rw [dev_map_mul]; ring

lemma crossSum_map_mul (c : ℚ) (x : List ℚ) (w : List (List ℚ)) :
    crossSum (x.map fun t => c * t) w = c ^ 2 * crossSum x w := by
  unfold crossSum
  rw [List.length_map, Finset.mul_sum]
  refine Finset.sum_congr rfl fun i _ => ?_
  rw [Finset.mul_sum]
  refine Finset.sum_congr rfl fun j _ => ?_
  rw [dev_map_mul, dev_map_mul]; ring

lemma sum_range_eq_sum_fin (n : ℕ) (f : ℕ → ℚ) :
    ∑ i in Finset.range n, f i = ∑ i : Fin n, f (i : ℕ) :=
  (Fin.sum_univ_eq_sum_range f n).symm

/-! ### Claims -/

/-- C1: for every observation matrix and `N × N` weights matrix satisfying the
preconditions (`N ≥ 2`, matching shapes, `S0 ≠ 0`, `Σ d_i² ≠ 0`), `MoransI`
returns exactly `(N · Σ_i Σ_j w_ij · d_i · d_j) / (S0 · Σ_i d_i²)`, with
`d_i = x_i − x̄`, `x̄` the arithmetic mean, and row-major flattening. -/
theorem MoransI_formula (values weights : List (List ℚ))
    (hN : 2 ≤ (flatten values).length)
    (hshape : weights.length = (flatten values).length ∧
      ∀ r ∈ weights, r.length = (flatten values).length)
    (hS0 : S0 weights (flatten values).length ≠ 0)
    (hvar : sumDevSq (flatten values) ≠ 0) :
    MoransI values weights =
      Except.ok ((((flatten values).length : ℚ) *
          ∑ i in Finset.range (flatten values).length,
            ∑ j in Finset.range (flatten values).length,
              wEntry weights i j * dev (flatten values) i * dev (flatten values) j) /
        ((∑ i in Finset.range (flatten values).length,
            ∑ j in Finset.range (flatten values).length, wEntry weights i j) *
          ∑ i in Finset.range (flatten values).length, dev (flatten values) i ^ 2)) := by
  unfold MoransI
  rw [if_neg (by omega), if_pos hshape, if_neg (not_or.mpr ⟨hS0, hvar⟩)]
  unfold crossSum S0 sumDevSq
  rfl

/-- C1 witness: the concrete scenario of §8 of the spec, values `[[1,2],[3,4]]`
with the 4×4 rook-contiguity weights matrix. -/
theorem MoransI_formula_witness :
    MoransI [[1, 2], [3, 4]] [[0, 1, 1, 0], [1, 0, 0, 1], [1, 0, 0, 1], [0, 1, 1, 0]] =
      Except.ok ((((flatten [[1, 2], [3, 4]]).length : ℚ) *
          ∑ i in Finset.range (flatten [[1, 2], [3, 4]]).length,
            ∑ j in Finset.range (flatten [[1, 2], [3, 4]]).length,
              wEntry [[0, 1, 1, 0], [1, 0, 0, 1], [1, 0, 0, 1], [0, 1, 1, 0]] i j *
                dev (flatten [[1, 2], [3, 4]]) i * dev (flatten [[1, 2], [3, 4]]) j) /
        ((∑ i in Finset.range (flatten [[1, 2], [3, 4]]).length,
            ∑ j in Finset.range (flatten [[1, 2], [3, 4]]).length,
              wEntry [[0, 1, 1, 0], [1, 0, 0, 1], [1, 0, 0, 1], [0, 1, 1, 0]] i j) *
          ∑ i in Finset.range (flatten [[1, 2], [3, 4]]).length,
            dev (flatten [[1, 2], [3, 4]]) i ^ 2)) :=
  MoransI_formula [[1, 2], [3, 4]] [[0, 1, 1, 0], [1, 0, 0, 1], [1, 0, 0, 1], [0, 1, 1, 0]]
    (by decide) (by decide)
    (by norm_num [S0, wEntry, flatten, Finset.sum_range_succ])
    (by norm_num [sumDevSq, dev, xbar, flatten, Finset.sum_range_succ])

/-- C3 counterexample: at observation matrix `[[1]]` (so `N = 1`) with the
mismatched 2×2 identity weights, the weights dimensions do not equal `N`, yet
`MoransI` fails with `InsufficientDataError`, not `ShapeMismatchError`. -/
theorem MoransI_shape_mismatch_cex :
    ([[ (1 : ℚ), 0], [0, 1]] : List (List ℚ)).length ≠ (flatten [[(1 : ℚ)]]).length ∧
      MoransI [[(1 : ℚ)]] [[1, 0], [0, 1]] ≠ Except.error MoransError.shapeMismatch := by
  constructor
  · decide
  · norm_num [MoransI, flatten]
    decide

/-- C3 (amended): for every input with `N ≥ 2` whose weights matrix dimensions
do not both equal `N`, `MoransI` fails with `ShapeMismatchError` and produces
no result. -/
theorem MoransI_shape_mismatch (values weights : List (List ℚ))
    (hN : 2 ≤ (flatten values).length)
    (hshape : ¬(weights.length = (flatten values).length ∧
      ∀ r ∈ weights, r.length = (flatten values).length)) :
    MoransI values weights = Except.error MoransError.shapeMismatch := by
  unfold MoransI
  rw [if_neg (by omega), if_neg hshape]

/-- C3 witness: a 4-element observation matrix with a 1×1 weights matrix. -/
theorem MoransI_shape_mismatch_witness :
    MoransI [[1, 2], [3, 4]] [[1]] = Except.error MoransError.shapeMismatch :=
  MoransI_shape_mismatch [[1, 2], [3, 4]] [[1]] (by decide) (by decide)

/-- C4: for every well-shaped input with zero sum of squared deviations
(constant observations) or zero total weight, `MoransI` consistently raises
`DomainError` — the single outcome chosen for all degenerate inputs — and
never returns a finite number. -/
theorem MoransI_degenerate (values weights : List (List ℚ))
    (hN : 2 ≤ (flatten values).length)
    (hshape : weights.length = (flatten values).length ∧
      ∀ r ∈ weights, r.length = (flatten values).length)
    (hdeg : S0 weights (flatten values).length = 0 ∨ sumDevSq (flatten values) = 0) :
    MoransI values weights = Except.error MoransError.domainError ∧
      ∀ q : ℚ, MoransI values weights ≠ Except.ok q := by
  have h : MoransI values weights = Except.error MoransError.domainError := by
    unfold MoransI
    rw [if_neg (by omega), if_pos hshape, if_pos hdeg]
  exact ⟨h, fun q hq => by rw [h] at hq; exact Except.noConfusion hq⟩

/-- C4 witness: the constant matrix `[[1,1],[1,1]]` with the rook-contiguity
weights has zero variance. -/
theorem MoransI_degenerate_witness :
    MoransI [[1, 1], [1, 1]] [[0, 1, 1, 0], [1, 0, 0, 1], [1, 0, 0, 1], [0, 1, 1, 0]] =
        Except.error MoransError.domainError ∧
      ∀ q : ℚ, MoransI [[1, 1], [1, 1]]
        [[0, 1, 1, 0], [1, 0, 0, 1], [1, 0, 0, 1], [0, 1, 1, 0]] ≠ Except.ok q :=
  MoransI_degenerate [[1, 1], [1, 1]] [[0, 1, 1, 0], [1, 0, 0, 1], [1, 0, 0, 1], [0, 1, 1, 0]]
    (by decide) (by decide)
    (Or.inr (by norm_num [sumDevSq, dev, xbar, flatten, Finset.sum_range_succ]))

/-- C5: for every input whose observation matrix has fewer than 2 elements
(the empty matrix included), `MoransI` fails with `InsufficientDataError`
rather than returning a scalar. -/
theorem MoransI_insufficient_data (values weights : List (List ℚ))
    (h : (flatten values).length < 2) :
    MoransI values weights = Except.error MoransError.insufficientData := by
  unfold MoransI
  rw [if_pos h]

/-- C5 witness: the empty observation matrix. -/
theorem MoransI_insufficient_data_witness :
    MoransI [] [] = Except.error MoransError.insufficientData :=
  MoransI_insufficient_data [] [] (by decide)

/-- C6: scaling every observation value by a nonzero constant `c` leaves the
result of `MoransI` unchanged (exactly, in the rational model). -/
theorem MoransI_scale_invariance (c : ℚ) (v w : List (List ℚ)) (hc : c ≠ 0) :
    MoransI (scaleValues c v) w = MoransI v w := by
  have hiff : c ^ 2 * sumDevSq (flatten v) = 0 ↔ sumDevSq (flatten v) = 0 := by
    constructor
    · intro h
      rcases mul_eq_zero.mp h with h | h
      · exact absurd ((pow_eq_zero_iff two_ne_zero).mp h) hc
      · exact h
    · intro h
      rw [h, mul_zero]
  unfold MoransI
  rw [flatten_scaleValues, List.length_map, sumDevSq_map_mul, crossSum_map_mul]
  simp only [hiff]
  by_cases h2 : (flatten v).length < 2
  · rw [if_pos h2, if_pos h2]
  · rw [if_neg h2, if_neg h2]
    by_cases hs : w.length = (flatten v).length ∧ ∀ r ∈ w, r.length = (flatten v).length
    · rw [if_pos hs, if_pos hs]
      by_cases hdeg : S0 w (flatten v).length = 0 ∨ sumDevSq (flatten v) = 0
      · rw [if_pos hdeg, if_pos hdeg]
      · rw [if_neg hdeg, if_neg hdeg]
        congr 1
        rw [mul_left_comm (((flatten v).length : ℚ)) (c ^ 2),
          mul_left_comm (S0 w (flatten v).length) (c ^ 2),
          mul_div_mul_left _ _ (pow_ne_zero 2 hc)]
    · rw [if_neg hs, if_neg hs]

/-- C6 witness: doubling the observations of the §8 scenario. -/
theorem MoransI_scale_invariance_witness :
    MoransI (scaleValues 2 [[1, 2], [3, 4]])
        [[0, 1, 1, 0], [1, 0, 0, 1], [1, 0, 0, 1], [0, 1, 1, 0]] =
      MoransI [[1, 2], [3, 4]] [[0, 1, 1, 0], [1, 0, 0, 1], [1, 0, 0, 1], [0, 1, 1, 0]] :=
  MoransI_scale_invariance 2 [[1, 2], [3, 4]]
    [[0, 1, 1, 0], [1, 0, 0, 1], [1, 0, 0, 1], [0, 1, 1, 0]] (by norm_num)

/-- C7: applying a permutation `π` of the flattened indices to the observation
sequence and, consistently, to both the rows and the columns of the weights
matrix leaves the result of `MoransI` unchanged. -/
theorem MoransI_permutation_invariance (v v' w w' : List (List ℚ))
    (π : Equiv.Perm (Fin (flatten v).length))
    (hlen : (flatten v').length = (flatten v).length)
    (hwshape : w.length = (flatten v).length ∧
      ∀ r ∈ w, r.length = (flatten v).length)
    (hw'shape : w'.length = (flatten v).length ∧
      ∀ r ∈ w', r.length = (flatten v).length)
    (hx : ∀ i : Fin (flatten v).length,
      (flatten v').getD i 0 = (flatten v).getD (π i) 0)
    (hperm : ∀ i j : Fin (flatten v).length,
      wEntry w' i j = wEntry w (π i) (π j)) :
    MoransI v' w' = MoransI v w := by
  have hsum : (flatten v').sum = (flatten v).sum := by
    rw [← sum_range_getD (flatten v'), ← sum_range_getD (flatten v), hlen,
      sum_range_eq_sum_fin, sum_range_eq_sum_fin]
    calc ∑ i : Fin (flatten v).length, (flatten v').getD (i : ℕ) 0
        = ∑ i : Fin (flatten v).length, (flatten v).getD (π i : ℕ) 0 :=
          Finset.sum_congr rfl fun i _ => hx i
      _ = ∑ i : Fin (flatten v).length, (flatten v).getD (i : ℕ) 0 :=
          Equiv.sum_comp π fun i => (flatten v).getD (i : ℕ) 0
  have hxbar : xbar (flatten v') = xbar (flatten v) := by
    unfold xbar
    rw [hsum, hlen]
  have hdev : ∀ i : Fin (flatten v).length,
      dev (flatten v') i = dev (flatten v) (π i) := fun i => by
    unfold dev
    rw [hx i, hxbar]
  have hsds : sumDevSq (flatten v') = sumDevSq (flatten v) := by
    unfold sumDevSq
    rw [hlen, sum_range_eq_sum_fin, sum_range_eq_sum_fin]
    calc ∑ i : Fin (flatten v).length, dev (flatten v') (i : ℕ) ^ 2
        = ∑ i : Fin (flatten v).length, dev (flatten v) (π i : ℕ) ^ 2 :=
          Finset.sum_congr rfl fun i _ => by rw [hdev i]
      _ = ∑ i : Fin (flatten v).length, dev (flatten v) (i : ℕ) ^ 2 :=
          Equiv.sum_comp π fun i => dev (flatten v) (i : ℕ) ^ 2
  have hS0 : S0 w' (flatten v).length = S0 w (flatten v).length := by
    unfold S0
    rw [sum_range_eq_sum_fin, sum_range_eq_sum_fin]
    calc ∑ i : Fin (flatten v).length,
          ∑ j in Finset.range (flatten v).length, wEntry w' (i : ℕ) j
        = ∑ i : Fin (flatten v).length, ∑ j : Fin (flatten v).length,
            wEntry w' (i : ℕ) (j : ℕ) :=
          Finset.sum_congr rfl fun i _ => sum_range_eq_sum_fin _ _
      _ = ∑ i : Fin (flatten v).length, ∑ j : Fin (flatten v).length,
            wEntry w (π i : ℕ) (π j : ℕ) :=
          Finset.sum_congr rfl fun i _ => Finset.sum_congr rfl fun j _ => hperm i j
      _ = ∑ i : Fin (flatten v).length, ∑ j : Fin (flatten v).length,
            wEntry w (π i : ℕ) (j : ℕ) :=
          Finset.sum_congr rfl fun i _ =>
            Equiv.sum_comp π fun j => wEntry w (π i : ℕ) (j : ℕ)
      _ = ∑ i : Fin (flatten v).length, ∑ j : Fin (flatten v).length,
            wEntry w (i : ℕ) (j : ℕ) :=
          Equiv.sum_comp π fun i =>
            ∑ j : Fin (flatten v).length, wEntry w (i : ℕ) (j : ℕ)
      _ = ∑ i : Fin (flatten v).length,
            ∑ j in Finset.range (flatten v).length, wEntry w (i : ℕ) j :=
          Finset.sum_congr rfl fun i _ => (sum_range_eq_sum_fin _ _).symm
  have hcross : crossSum (flatten v') w' = crossSum (flatten v) w := by
    unfold crossSum
    rw [hlen, sum_range_eq_sum_fin, sum_range_eq_sum_fin]
    calc ∑ i : Fin (flatten v).length, ∑ j in Finset.range (flatten v).length,
          wEntry w' (i : ℕ) j * dev (flatten v') (i : ℕ) * dev (flatten v') j
        = ∑ i : Fin (flatten v).length, ∑ j : Fin (flatten v).length,
            wEntry w' (i : ℕ) (j : ℕ) * dev (flatten v') (i : ℕ) *
              dev (flatten v') (j : ℕ) :=
          Finset.sum_congr rfl fun i _ => sum_range_eq_sum_fin _ _
      _ = ∑ i : Fin (flatten v).length, ∑ j : Fin (flatten v).length,
            wEntry w (π i : ℕ) (π j : ℕ) * dev (flatten v) (π i : ℕ) *
              dev (flatten v) (π j : ℕ) :=
          Finset.sum_congr rfl fun i _ => Finset.sum_congr rfl fun j _ => by
            rw [hperm i j, hdev i, hdev j]
      _ = ∑ i : Fin (flatten v).length, ∑ j : Fin (flatten v).length,
            wEntry w (π i : ℕ) (j : ℕ) * dev (flatten v) (π i : ℕ) *
              dev (flatten v) (j : ℕ) :=
          Finset.sum_congr rfl fun i _ =>
            Equiv.sum_comp π fun j =>
              wEntry w (π i : ℕ) (j : ℕ) * dev (flatten v) (π i : ℕ) *
                dev (flatten v) (j : ℕ)
      _ = ∑ i : Fin (flatten v).length, ∑ j : Fin (flatten v).length,
            wEntry w (i : ℕ) (j : ℕ) * dev (flatten v) (i : ℕ) *
              dev (flatten v) (j : ℕ) :=
          Equiv.sum_comp π fun i => ∑ j : Fin (flatten v).length,
            wEntry w (i : ℕ) (j : ℕ) * dev (flatten v) (i : ℕ) *
              dev (flatten v) (j : ℕ)
      _ = ∑ i : Fin (flatten v).length,
            ∑ j in Finset.range (flatten v).length,
              wEntry w (i : ℕ) j * dev (flatten v) (i : ℕ) * dev (flatten v) j :=
          Finset.sum_congr rfl fun i _ =>
            (sum_range_eq_sum_fin (flatten v).length fun j =>
              wEntry w (i : ℕ) j * dev (flatten v) (i : ℕ) * dev (flatten v) j).symm
  unfold MoransI
  simp only [hlen, hsds, hS0, hcross]
  by_cases h2 : (flatten v).length < 2
  · rw [if_pos h2, if_pos h2]
  · rw [if_neg h2, if_neg h2, if_pos hw'shape, if_pos hwshape]

/-- C7 witness: swapping the first two flattened cells of the §8 scenario and
permuting the rook-contiguity weights rows and columns accordingly. -/
theorem MoransI_permutation_invariance_witness :
    MoransI [[2, 1], [3, 4]] [[0, 1, 0, 1], [1, 0, 1, 0], [0, 1, 0, 1], [1, 0, 1, 0]] =
      MoransI [[1, 2], [3, 4]] [[0, 1, 1, 0], [1, 0, 0, 1], [1, 0, 0, 1], [0, 1, 1, 0]] :=
  MoransI_permutation_invariance [[1, 2], [3, 4]] [[2, 1], [3, 4]]
    [[0, 1, 1, 0], [1, 0, 0, 1], [1, 0, 0, 1], [0, 1, 1, 0]]
    [[0, 1, 0, 1], [1, 0, 1, 0], [0, 1, 0, 1], [1, 0, 1, 0]]
    (Equiv.swap ⟨0, by decide⟩ ⟨1, by decide⟩)
    (by decide) (by decide) (by decide)
    (by decide) (by decide)

/-- C2: the entry point is registered with exactly two input handles, and for
every pair of inputs the exported wrapper yields either a single scalar or an
error condition — never a matrix or other structured value. -/
theorem exported_scalar_contract :
    CallEntries = [("_ICvectorfields_MoransI", 2)] ∧
      (∀ mat1 r1 : SEXP,
        (∃ q : ℚ, ICvectorfields_MoransI mat1 r1 = SEXP.realScalar q) ∨
        (∃ e : MoransError, ICvectorfields_MoransI mat1 r1 = SEXP.errorCondition e)) ∧
      ∀ (mat1 r1 : SEXP) (m : List (List ℚ)),
        ICvectorfields_MoransI mat1 r1 ≠ SEXP.realMatrix m := by
  refine ⟨rfl, fun mat1 r1 => ?_, fun mat1 r1 m => ?_⟩
  · unfold ICvectorfields_MoransI
    cases MoransINative mat1 r1 with
    | ok v => exact Or.inl ⟨v, rfl⟩
    | error e => exact Or.inr ⟨e, rfl⟩
  · unfold ICvectorfields_MoransI
    cases MoransINative mat1 r1 with
    | ok v => exact fun h => SEXP.noConfusion h
    | error e => exact fun h => SEXP.noConfusion h

/-- C8: the computation is deterministic — identical inputs give identical
results, both at the exported wrapper and at the native engine (the embedding
is a pure function; the binding code performs no I/O and touches no shared
state). -/
theorem MoransI_deterministic (mat1 r1 mat1' r1' : SEXP)
    (h1 : mat1 = mat1') (h2 : r1 = r1') :
    ICvectorfields_MoransI mat1 r1 = ICvectorfields_MoransI mat1' r1' ∧
      MoransINative mat1 r1 = MoransINative mat1' r1' := by
  subst h1
  subst h2
  exact ⟨rfl, rfl⟩

/-- C8 witness: two identical invocations on the §8 scenario. -/
theorem MoransI_deterministic_witness :
    ICvectorfields_MoransI (SEXP.realMatrix [[1, 2], [3, 4]])
          (SEXP.realMatrix [[0, 1, 1, 0], [1, 0, 0, 1], [1, 0, 0, 1], [0, 1, 1, 0]]) =
        ICvectorfields_MoransI (SEXP.realMatrix [[1, 2], [3, 4]])
          (SEXP.realMatrix [[0, 1, 1, 0], [1, 0, 0, 1], [1, 0, 0, 1], [0, 1, 1, 0]]) ∧
      MoransINative (SEXP.realMatrix [[1, 2], [3, 4]])
          (SEXP.realMatrix [[0, 1, 1, 0], [1, 0, 0, 1], [1, 0, 0, 1], [0, 1, 1, 0]]) =
        MoransINative (SEXP.realMatrix [[1, 2], [3, 4]])
          (SEXP.realMatrix [[0, 1, 1, 0], [1, 0, 0, 1], [1, 0, 0, 1], [0, 1, 1, 0]]) :=
  MoransI_deterministic _ _ _ _ rfl rfl

/-- C9: whenever the native routine returns normally, the exported wrapper
`_ICvectorfields_MoransI` is exactly `Rcpp::wrap` applied to `MoransI` of its
two arguments in the order received, with no reordering, coercion, or
validation at the binding layer. -/
theorem exported_wrapper_forwards (mat1 r1 : SEXP) (q : ℚ)
    (h : MoransINative mat1 r1 = Except.ok q) :
    ICvectorfields_MoransI mat1 r1 = RcppWrap q := by
  unfold ICvectorfields_MoransI
  rw [h]

/-- C9 witness: on the §8 scenario the native routine returns `0` and the
wrapper returns the wrapped scalar. -/
theorem exported_wrapper_forwards_witness :
    ICvectorfields_MoransI (SEXP.realMatrix [[1, 2], [3, 4]])
        (SEXP.realMatrix [[0, 1, 1, 0], [1, 0, 0, 1], [1, 0, 0, 1], [0, 1, 1, 0]]) =
      RcppWrap 0 :=
  exported_wrapper_forwards _ _ 0
    (by norm_num [MoransINative, decodeMatrix, MoransI, flatten, S0, wEntry, sumDevSq,
      crossSum, dev, xbar, Finset.sum_range_succ])

/-- C10: every exception raised by the native routine is caught by the
BEGIN_RCPP/END_RCPP envelope and converted into a host error condition, so no
exception propagates past the exported entry point. -/
theorem exported_wrapper_catches (mat1 r1 : SEXP) (e : MoransError)
    (h : MoransINative mat1 r1 = Except.error e) :
    ICvectorfields_MoransI mat1 r1 = SEXP.errorCondition e := by
  unfold ICvectorfields_MoransI
  rw [h]

/-- C10 witness: a one-element observation matrix makes the native routine
raise `InsufficientDataError`; the wrapper surfaces it as an error
condition. -/
theorem exported_wrapper_catches_witness :
    ICvectorfields_MoransI (SEXP.realMatrix [[1]]) (SEXP.realMatrix [[1]]) =
      SEXP.errorCondition MoransError.insufficientData :=
  exported_wrapper_catches _ _ MoransError.insufficientData
    (by norm_num [MoransINative, decodeMatrix, MoransI, flatten])

end ICvectorfields
